import Mathlib

/-!
# Verification of the rethinkdb data-provider core (`src/data_provider.hpp`)

Shallow embedding of the byte-source abstraction layer: buffer groups
(scatter/gather span lists), the dual push/pull read operations with their
bridging adapters, the conditional-buffering wrapper, the cross-thread
rendezvous provider, and the fan-out splitter.

A byte is modelled as a natural number; a memory region is modelled by its
contents, a list of bytes (pointers have no identity beyond the bytes they
reach in this model).  A read that throws `data_provider_failed_exc_t` is
modelled as `Except.error ()`, a successful read as `Except.ok` of the
produced buffer group.  Method bodies that are present inline in the header
are translated directly; bodies that live in a `.cpp` file outside the
present tree are modelled from the specification, and each such definition
says so in its doc comment.
-/

/-- A byte.  The code moves bytes opaquely; their numeric type is irrelevant. -/
abbrev Byte := Nat

/-! ## `const_buffer_group_t` and `buffer_group_t` (header lines 12-65) -/

/-- `const_buffer_group_t::buffer_t`: a `(size, pointer)` pair.  The pointed-to
region is modelled by its byte contents.  The C++ field is `ssize_t size`, but
it is only ever written from the `size_t` argument of `add_buffer`, so `Nat`
is faithful. -/
structure cbuffer_t where
  size : Nat
  data : List Byte
deriving Repr, DecidableEq

/-- The unspecified value produced by an out-of-range `std::vector`
`operator[]` read: the access is undefined behavior, the program performs it
unchecked and yields whatever lies in memory.  We represent that unspecified
result by a fixed junk value; nothing may depend on its contents. -/
def junk_cbuffer : cbuffer_t := ⟨0, []⟩

/-- `const_buffer_group_t`: append-only ordered list of buffers. -/
structure const_buffer_group_t where
  buffers_ : List cbuffer_t
deriving Repr, DecidableEq

namespace const_buffer_group_t

/-- `add_buffer(s, d)`: push `{size = s, data = d}` onto `buffers_`. -/
def add_buffer (g : const_buffer_group_t) (s : Nat) (d : List Byte) :
    const_buffer_group_t :=
  ⟨g.buffers_ ++ [⟨s, d⟩]⟩

/-- `num_buffers()`: `buffers_.size()`. -/
def num_buffers (g : const_buffer_group_t) : Nat := g.buffers_.length

/-- `get_buffer(i)`: `return buffers_[i];` — an unchecked `std::vector`
subscript.  In range it returns the stored element; out of range the C++
access is undefined behavior, modelled as the unspecified `junk_cbuffer`. -/
def get_buffer (g : const_buffer_group_t) (i : Nat) : cbuffer_t :=
  g.buffers_.getD i junk_cbuffer

/-- `get_size()`: sum of the `size` fields of all buffers. -/
def get_size (g : const_buffer_group_t) : Nat :=
  (g.buffers_.map (fun b => b.size)).sum

/-- Modelled from the spec: the spec claims index access is
precondition-checked, i.e. an out-of-range index is rejected.  A checked
access returns `none` when `i ≥ num_buffers()`.  This definition follows the
spec words and exists only to be compared with the code's `get_buffer`. -/
def spec_checked_get_buffer (g : const_buffer_group_t) (i : Nat) :
    Option cbuffer_t :=
  g.buffers_.get? i

end const_buffer_group_t

/-- `buffer_group_t::buffer_t`: like `cbuffer_t` but with a non-const data
pointer (`const_cast` strips constness; in the contents model it is the
identity). -/
structure mbuffer_t where
  size : Nat
  data : List Byte
deriving Repr, DecidableEq

/-- `buffer_group_t`: wraps a `const_buffer_group_t` (`inner_`). -/
structure buffer_group_t where
  inner_ : const_buffer_group_t
deriving Repr, DecidableEq

namespace buffer_group_t

/-- `add_buffer(s, d)`: delegates to `inner_.add_buffer(s, d)`. -/
def add_buffer (g : buffer_group_t) (s : Nat) (d : List Byte) :
    buffer_group_t :=
  ⟨g.inner_.add_buffer s d⟩

/-- `num_buffers()`: delegates to `inner_`. -/
def num_buffers (g : buffer_group_t) : Nat := g.inner_.num_buffers

/-- `get_buffer(i)`: fetches `inner_.get_buffer(i)` and `const_cast`s the
data pointer (identity on contents). -/
def get_buffer (g : buffer_group_t) (i : Nat) : mbuffer_t :=
  let tmp := g.inner_.get_buffer i
  ⟨tmp.size, tmp.data⟩

/-- `get_size()`: delegates to `inner_`. -/
def get_size (g : buffer_group_t) : Nat := g.inner_.get_size

end buffer_group_t

/-- `const_view(group)`: exposes the wrapped `inner_` read-only group by
reference (no copy). -/
def const_view (g : buffer_group_t) : const_buffer_group_t := g.inner_

/-- Build a group by a sequence of `add_buffer` calls, one per listed
`(size, contents)` pair, starting from the default-constructed group. -/
def buildConstGroup (ps : List (Nat × List Byte)) : const_buffer_group_t :=
  ps.foldl (fun g p => g.add_buffer p.1 p.2) ⟨[]⟩

/-- The same construction for the mutable group type. -/
def buildGroup (ps : List (Nat × List Byte)) : buffer_group_t :=
  ps.foldl (fun g p => g.add_buffer p.1 p.2) ⟨⟨[]⟩⟩

theorem buildConstGroup_buffers (ps : List (Nat × List Byte)) :
    (buildConstGroup ps).buffers_ = ps.map (fun p => ⟨p.1, p.2⟩) := by
  suffices h : ∀ (acc : List cbuffer_t),
      (ps.foldl (fun g p => g.add_buffer p.1 p.2)
        ⟨acc⟩ : const_buffer_group_t).buffers_ =
      acc ++ ps.map (fun p => ⟨p.1, p.2⟩) by
    simpa using h []
  induction ps with
  | nil => intro acc; simp [buildConstGroup]
  | cons p ps ih =>
    intro acc
    rw [List.foldl_cons]
    have hstep : (const_buffer_group_t.mk acc).add_buffer p.1 p.2 =
        ⟨acc ++ [⟨p.1, p.2⟩]⟩ := rfl
    rw [hstep, ih]
    simp

theorem buildGroup_inner (ps : List (Nat × List Byte)) :
    (buildGroup ps).inner_ = buildConstGroup ps := by
  suffices h : ∀ (g : const_buffer_group_t),
      (ps.foldl (fun g p => g.add_buffer p.1 p.2) ⟨g⟩ : buffer_group_t).inner_ =
      ps.foldl (fun g p => g.add_buffer p.1 p.2) g by
    exact h ⟨[]⟩
  induction ps with
  | nil => intro g; rfl
  | cons p ps ih =>
    intro g
    rw [List.foldl_cons]
    have hstep : (buffer_group_t.mk g).add_buffer p.1 p.2 =
        ⟨g.add_buffer p.1 p.2⟩ := rfl
    rw [hstep, ih, List.foldl_cons]

/-! ## Read results and the copy-bridge machinery

A read operation either throws `data_provider_failed_exc_t` (`Except.error ()`:
the exception carries no information) or succeeds.  A successful
`get_data_as_buffers` yields a buffer group, modelled by the list of its
buffers' byte contents; a successful `get_data_into_buffers` fills the
caller's buffers, modelled by the list of byte contents the destination
buffers hold afterwards.  A destination buffer group is identified by its
shape: the list of its buffers' sizes. -/

abbrev ReadResult := Except Unit (List (List Byte))

/-- The byte contents of a whole group: concatenation of its buffers. -/
def groupBytes : ReadResult → Except Unit (List Byte)
  | .error () => .error ()
  | .ok g => .ok g.flatten

/-- Modelled from the spec: the destination side of the push-from-pull copy.
Writing a byte stream in order across a destination of shape `ds` leaves the
first `ds.head` bytes in the first buffer, the next bytes in the second, and
so on. -/
def takeChunks : List Nat → List Byte → List (List Byte)
  | [], _ => []
  | n :: ns, bs => bs.take n :: takeChunks ns (bs.drop n)

/-- Modelled from the spec: the source-side cursor of
`auto_copying_data_provider_t::get_data_into_buffers` (body not in `src/`).
Collect the next `n` bytes from the source span list, advancing across span
boundaries when the current source span is exhausted first; return the bytes
collected and the remaining (partially consumed) source spans. -/
def fillOne : Nat → List (List Byte) → List Byte × List (List Byte)
  | _, [] => ([], [])
  | n, b :: rest =>
    if n ≤ b.length then (b.take n, b.drop n :: rest)
    else
      let r := fillOne (n - b.length) rest
      (b ++ r.1, r.2)

/-- Modelled from the spec: the push-from-pull bridge's copy loop.  For each
destination span size in order, collect that many bytes from the running
source cursor; the result is the contents of the destination buffers. -/
def fillAll : List Nat → List (List Byte) → List (List Byte)
  | [], _ => []
  | n :: ns, srcs =>
    let r := fillOne n srcs
    r.1 :: fillAll ns r.2

theorem fillOne_fst (n : Nat) (srcs : List (List Byte)) :
    (fillOne n srcs).1 = srcs.flatten.take n := by
  induction srcs generalizing n with
  | nil => simp [fillOne]
  | cons b rest ih =>
    by_cases h : n ≤ b.length
    · simp [fillOne, h, List.take_append_eq_append_take,
        Nat.sub_eq_zero_of_le h]
    · simp only [fillOne, if_neg h, List.flatten_cons,
        List.take_append_eq_append_take, ih]
      rw [List.take_of_length_le (l := b) (by omega)]

theorem fillOne_snd_flatten (n : Nat) (srcs : List (List Byte)) :
    (fillOne n srcs).2.flatten = srcs.flatten.drop n := by
  induction srcs generalizing n with
  | nil => simp [fillOne]
  | cons b rest ih =>
    by_cases h : n ≤ b.length
    · simp [fillOne, h, List.drop_append_eq_append_drop,
        Nat.sub_eq_zero_of_le h]
    · simp only [fillOne, if_neg h, List.flatten_cons,
        List.drop_append_eq_append_drop, ih]
      rw [List.drop_of_length_le (l := b) (by omega)]
      simp

theorem fillAll_eq_takeChunks (ds : List Nat) (srcs : List (List Byte)) :
    fillAll ds srcs = takeChunks ds srcs.flatten := by
  induction ds generalizing srcs with
  | nil => simp [fillAll, takeChunks]
  | cons n ns ih =>
    simp [fillAll, takeChunks, fillOne_fst, ih, fillOne_snd_flatten]

theorem takeChunks_flatten (ds : List Nat) (bs : List Byte)
    (h : ds.sum = bs.length) : (takeChunks ds bs).flatten = bs := by
  induction ds generalizing bs with
  | nil =>
    simp only [List.sum_nil] at h
    simp [takeChunks, List.length_eq_zero.mp h.symm]
  | cons n ns ih =>
    simp only [List.sum_cons] at h
    simp only [takeChunks, List.flatten_cons]
    rw [ih (bs.drop n) (by simp; omega)]
    exact List.take_append_drop n bs

theorem fillAll_flatten (ds : List Nat) (srcs : List (List Byte))
    (h : ds.sum = srcs.flatten.length) :
    (fillAll ds srcs).flatten = srcs.flatten := by
  rw [fillAll_eq_takeChunks]
  exact takeChunks_flatten ds srcs.flatten h

/-! ## The two bridging adapters (header lines 111-130)

Both adapter classes are abstract; a concrete subclass supplies `get_size()`
and one native read operation.  A subclass of `auto_copying_data_provider_t`
is modelled, for the purposes of the read operations, by its native
`get_data_as_buffers` outcome; a subclass of `auto_buffering_data_provider_t`
by the byte stream its native `get_data_into_buffers` writes (in order)
across whatever destination it is handed, or by failure. -/

/-- A concrete subclass of `auto_copying_data_provider_t`: `size` is what its
`get_size()` returns, `spans` the outcome of its native pull read. -/
structure auto_copying_data_provider_t where
  size : Nat
  spans : ReadResult

namespace auto_copying_data_provider_t

def get_size (p : auto_copying_data_provider_t) : Nat := p.size

/-- The subclass's native pull read. -/
def get_data_as_buffers (p : auto_copying_data_provider_t) : ReadResult :=
  p.spans

/-- Modelled from the spec: the body of
`auto_copying_data_provider_t::get_data_into_buffers` is not in `src/`.  Per
§4.2, it calls the subclass's `get_data_as_buffers` and copies byte-for-byte
from the returned spans into the destination spans with two running cursors
(`fillOne`/`fillAll`), propagating a failure unchanged. -/
def get_data_into_buffers (p : auto_copying_data_provider_t)
    (dest : List Nat) : ReadResult :=
  match p.spans with
  | .error () => .error ()
  | .ok bufs => .ok (fillAll dest bufs)

end auto_copying_data_provider_t

/-- A concrete subclass of `auto_buffering_data_provider_t`: `size` is what
its `get_size()` returns, `stream` the byte sequence its native push read
writes in order across the supplied destination, or failure. -/
structure auto_buffering_data_provider_t where
  size : Nat
  stream : Except Unit (List Byte)

namespace auto_buffering_data_provider_t

def get_size (p : auto_buffering_data_provider_t) : Nat := p.size

/-- The subclass's native push read: write the stream in order across the
destination shape. -/
def get_data_into_buffers (p : auto_buffering_data_provider_t)
    (dest : List Nat) : ReadResult :=
  match p.stream with
  | .error () => .error ()
  | .ok bs => .ok (takeChunks dest bs)

/-- Modelled from the spec: the body of
`auto_buffering_data_provider_t::get_data_as_buffers` is not in `src/`.  Per
§4.2, it allocates one contiguous buffer of `get_size()` bytes, builds a
single-span view over it, calls the subclass's `get_data_into_buffers` on
that view, and returns the resulting single-span group. -/
def get_data_as_buffers (p : auto_buffering_data_provider_t) : ReadResult :=
  p.get_data_into_buffers [p.size]

end auto_buffering_data_provider_t

/-- C2: for a provider whose native read succeeds, and a destination whose
total size equals the provider's size, the bytes deposited by
`get_data_into_buffers` concatenate to the same sequence as the buffers
returned by `get_data_as_buffers` on an identically-constructed provider —
for a pull-native provider (`auto_copying` bridge supplies the fill) as well
as a push-native provider (`auto_buffering` bridge supplies the spans), and
for arbitrary, possibly unaligned, segment boundaries on either side. -/
theorem push_pull_byte_equivalence
    (sp : List (List Byte)) (bs : List Byte) (D D2 : List Nat)
    (h1 : D.sum = (auto_copying_data_provider_t.mk sp.flatten.length
        (.ok sp)).get_size)
    (h2 : D2.sum = (auto_buffering_data_provider_t.mk bs.length
        (.ok bs)).get_size) :
    groupBytes ((auto_copying_data_provider_t.mk sp.flatten.length
        (.ok sp)).get_data_into_buffers D) =
      groupBytes ((auto_copying_data_provider_t.mk sp.flatten.length
        (.ok sp)).get_data_as_buffers)
    ∧ groupBytes ((auto_buffering_data_provider_t.mk bs.length
        (.ok bs)).get_data_into_buffers D2) =
      groupBytes ((auto_buffering_data_provider_t.mk bs.length
        (.ok bs)).get_data_as_buffers) := by
  constructor
  · simp only [auto_copying_data_provider_t.get_data_into_buffers,
      auto_copying_data_provider_t.get_data_as_buffers, groupBytes]
    rw [fillAll_flatten D sp h1]
  · simp only [auto_buffering_data_provider_t.get_data_into_buffers,
      auto_buffering_data_provider_t.get_data_as_buffers, groupBytes]
    rw [takeChunks_flatten D2 bs h2]
    rw [takeChunks_flatten [bs.length] bs (by simp)]

/-- Witness for `push_pull_byte_equivalence` at a concrete misaligned
instance. -/
theorem push_pull_byte_equivalence_witness :
    ([1, 1, 1] : List Nat).sum = (auto_copying_data_provider_t.mk
        ([[1, 2], [3]] : List (List Byte)).flatten.length
        (.ok [[1, 2], [3]])).get_size
    ∧ ([3, 1] : List Nat).sum = (auto_buffering_data_provider_t.mk
        ([4, 5, 6, 7] : List Byte).length (.ok [4, 5, 6, 7])).get_size
    ∧ (groupBytes ((auto_copying_data_provider_t.mk
        ([[1, 2], [3]] : List (List Byte)).flatten.length
        (.ok [[1, 2], [3]])).get_data_into_buffers [1, 1, 1]) =
      groupBytes ((auto_copying_data_provider_t.mk
        ([[1, 2], [3]] : List (List Byte)).flatten.length
        (.ok [[1, 2], [3]])).get_data_as_buffers)
    ∧ groupBytes ((auto_buffering_data_provider_t.mk
        ([4, 5, 6, 7] : List Byte).length
        (.ok [4, 5, 6, 7])).get_data_into_buffers [3, 1]) =
      groupBytes ((auto_buffering_data_provider_t.mk
        ([4, 5, 6, 7] : List Byte).length
        (.ok [4, 5, 6, 7])).get_data_as_buffers)) :=
  ⟨by decide, by decide,
   push_pull_byte_equivalence [[1, 2], [3]] [4, 5, 6, 7] [1, 1, 1] [3, 1]
     (by decide) (by decide)⟩

/-! ## `buffered_data_provider_t` (header lines 132-146) -/

/-- `buffered_data_provider_t`: owns one contiguous buffer (`buffer`), a
`size` field, and a member buffer group `bg` through which the single span is
exposed.  Bodies are not in `src/`; modelled from the spec (§4.3). -/
structure buffered_data_provider_t where
  size : Nat
  bg : const_buffer_group_t
  buffer : List Byte

namespace buffered_data_provider_t

/-- Modelled from the spec: construction mode 2, copying `data.length` bytes
out of a caller buffer into the owned buffer; `bg` starts empty. -/
def ofBytes (data : List Byte) : buffered_data_provider_t :=
  ⟨data.length, ⟨[]⟩, data⟩

def get_size (p : buffered_data_provider_t) : Nat := p.size

/-- Modelled from the spec: `get_data_as_buffers` registers the single span
over the owned buffer in the member group `bg` and returns that single-span
view. -/
def get_data_as_buffers (p : buffered_data_provider_t) :
    buffered_data_provider_t × ReadResult :=
  (⟨p.size, p.bg.add_buffer p.size p.buffer, p.buffer⟩, .ok [p.buffer])

/-- Modelled from the spec: `get_data_into_buffers` is obtained from the
push-from-pull bridge applied to the single-span view over the owned
buffer. -/
def get_data_into_buffers (p : buffered_data_provider_t)
    (dest : List Nat) : buffered_data_provider_t × ReadResult :=
  (p, .ok (fillAll dest [p.buffer]))

end buffered_data_provider_t

/-! ## `maybe_buffered_data_provider_t` (header lines 148-168) -/

/-- The `size_t` → `int` conversion performed when the wrapped provider's
size is stored in the declared `int size` field (header line 161).  `int` is
32-bit two's complement; values that do not fit wrap. -/
def int_of_size_t (n : Nat) : Int :=
  let m : Nat := n % 2 ^ 32
  if m < 2 ^ 31 then (m : Int) else (m : Int) - 2 ^ 32

/-- The `int` → `size_t` conversion performed when the `int size` field is
returned from `get_size()` (return type `size_t`, 64-bit): sign extension,
i.e. reduction modulo `2 ^ 64`. -/
def size_t_of_int (i : Int) : Nat := (i % (2 ^ 64 : Int)).toNat

/-- `maybe_buffered_data_provider_t`.  The wrapped provider `original` is
modelled by the outcome of its native span read: a buffer group (whose
flattening is the byte sequence either of its reads delivers) or failure.
The declared fields (header lines 160-167): the `int size` field, the
failure flag, and the optional owned buffer (`none` when the decision was
not to buffer), modelled by the drained byte contents. -/
structure maybe_buffered_data_provider_t where
  size : Int
  original : ReadResult
  exception_was_thrown : Bool
  buffer : Option (List Byte)

namespace maybe_buffered_data_provider_t

/-- Modelled from the spec (§4.4) and the header comment (lines 163-165):
the constructor body is not in `src/`.  Store the wrapped provider's size in
the `int size` field; if the size is at most the threshold, immediately
drain the wrapped provider into an owned `buffered_data_provider_t`; if that
drain throws, catch the exception and set `exception_was_thrown` instead of
propagating; above the threshold, keep no buffer. -/
def construct (inner : ReadResult) (inner_size : Nat) (threshold : Int) :
    maybe_buffered_data_provider_t :=
  let sz := int_of_size_t inner_size
  if sz ≤ threshold then
    match inner with
    | .ok g => ⟨sz, inner, false, some g.flatten⟩
    | .error () => ⟨sz, inner, true, none⟩
  else ⟨sz, inner, false, none⟩

/-- `get_size()` returns the `int size` field at return type `size_t`. -/
def get_size (p : maybe_buffered_data_provider_t) : Nat :=
  size_t_of_int p.size

/-- Modelled from the spec (§4.4): first check the recorded failure flag and
throw if set; otherwise serve from the owned buffer when one exists (its
single span pushed across the destination by the bridge), else delegate to
the wrapped provider, whose fill writes its bytes in order across the
destination. -/
def get_data_into_buffers (p : maybe_buffered_data_provider_t)
    (dest : List Nat) : maybe_buffered_data_provider_t × ReadResult :=
  if p.exception_was_thrown then (p, .error ())
  else
    match p.buffer with
    | some bs => (p, .ok (fillAll dest [bs]))
    | none =>
      match p.original with
      | .ok g => (p, .ok (fillAll dest g))
      | .error () => (p, .error ())

/-- Modelled from the spec (§4.4): first check the recorded failure flag and
throw if set; otherwise return the owned buffer's single-span view when one
exists, else delegate to the wrapped provider's native span read. -/
def get_data_as_buffers (p : maybe_buffered_data_provider_t) :
    maybe_buffered_data_provider_t × ReadResult :=
  if p.exception_was_thrown then (p, .error ())
  else
    match p.buffer with
    | some bs => (p, .ok [bs])
    | none =>
      match p.original with
      | .ok g => (p, .ok g)
      | .error () => (p, .error ())

end maybe_buffered_data_provider_t

theorem fillAll_single_flatten (dest : List Nat) (g : List (List Byte)) :
    fillAll dest [g.flatten] = fillAll dest g := by
  rw [fillAll_eq_takeChunks, fillAll_eq_takeChunks]
  simp

namespace maybe_buffered_data_provider_t

theorem construct_read_into (inner : ReadResult) (n : Nat) (t : Int)
    (dest : List Nat) :
    ((construct inner n t).get_data_into_buffers dest).2 =
      match inner with
      | .ok g => .ok (fillAll dest g)
      | .error () => .error () := by
  cases inner with
  | ok g =>
    simp only [construct]
    split
    · simp [get_data_into_buffers, fillAll_single_flatten]
    · simp [get_data_into_buffers]
  | error e =>
    cases e
    simp only [construct]
    split
    · simp [get_data_into_buffers]
    · simp [get_data_into_buffers]

theorem construct_read_as (inner : ReadResult) (n : Nat) (t : Int) :
    groupBytes ((construct inner n t).get_data_as_buffers).2 =
      match inner with
      | .ok g => .ok g.flatten
      | .error () => .error () := by
  cases inner with
  | ok g =>
    simp only [construct]
    split
    · simp [get_data_as_buffers, groupBytes]
    · simp [get_data_as_buffers, groupBytes]
  | error e =>
    cases e
    simp only [construct]
    split
    · simp [get_data_as_buffers, groupBytes]
    · simp [get_data_as_buffers, groupBytes]

theorem construct_size_field (inner : ReadResult) (n : Nat) (t : Int) :
    (construct inner n t).size = int_of_size_t n := by
  simp only [construct]
  split
  · cases inner with
    | ok g => rfl
    | error e => cases e; rfl
  · rfl

end maybe_buffered_data_provider_t

/-- C1: construction of a `maybe_buffered_data_provider_t` never surfaces a
failure (the constructor is a total function of the inner provider's
outcome); the observable outcome of each read operation — the destination's
bytes for `get_data_into_buffers`, the returned group's bytes for
`get_data_as_buffers`, or the thrown failure — is the same for any two
thresholds `t` and `u`, hence identical whether or not buffering was
attempted; and when the construction-time drain fails, every subsequent call
to either read operation throws, so failure first becomes visible at the
first read. -/
theorem mbdp_buffering_transparent (inner : ReadResult) (n : Nat)
    (dest : List Nat) (t u : Int) :
    ((maybe_buffered_data_provider_t.construct inner n t).get_data_into_buffers
        dest).2 =
      ((maybe_buffered_data_provider_t.construct inner n u).get_data_into_buffers
        dest).2
    ∧ groupBytes ((maybe_buffered_data_provider_t.construct inner n
        t).get_data_as_buffers).2 =
      groupBytes ((maybe_buffered_data_provider_t.construct inner n
        u).get_data_as_buffers).2
    ∧ ((maybe_buffered_data_provider_t.construct (.error ()) n
        t).get_data_into_buffers dest).2 = .error ()
    ∧ ((maybe_buffered_data_provider_t.construct (.error ()) n
        t).get_data_as_buffers).2 = .error () := by
  refine ⟨?_, ?_, ?_, ?_⟩
  · rw [maybe_buffered_data_provider_t.construct_read_into,
      maybe_buffered_data_provider_t.construct_read_into]
  · rw [maybe_buffered_data_provider_t.construct_read_as,
      maybe_buffered_data_provider_t.construct_read_as]
  · rw [maybe_buffered_data_provider_t.construct_read_into]
  · have h := maybe_buffered_data_provider_t.construct_read_as (.error ()) n t
    simp only [groupBytes] at h
    cases he : ((maybe_buffered_data_provider_t.construct (.error ()) n
        t).get_data_as_buffers).2 with
    | ok g => rw [he] at h; simp at h
    | error e => cases e; rfl

/-- C10: the wrapped provider's `size_t` size is stored in the declared
`int size` field; the public `get_size()` returns that field widened back to
`size_t`, and the construction-time threshold comparison is performed on
that field.  Both are faithful to the true inner size — `get_size()` returns
it and the comparison sees it — exactly when the inner size is representable
as a (32-bit, two's-complement) `int`. -/
theorem mbdp_int_size_truncation (inner : ReadResult) (n : Nat) (t : Int)
    (h : n < 2 ^ 64) :
    ((maybe_buffered_data_provider_t.construct inner n t).get_size = n
      ∧ (maybe_buffered_data_provider_t.construct inner n t).size = (n : Int))
    ↔ n ≤ 2 ^ 31 - 1 := by
  rw [maybe_buffered_data_provider_t.get_size,
    maybe_buffered_data_provider_t.construct_size_field]
  simp only [int_of_size_t, size_t_of_int]
  split_ifs with hm <;> omega

/-- Witness for `mbdp_int_size_truncation` at the concrete inner size 5. -/
theorem mbdp_int_size_truncation_witness :
    (5 : Nat) < 2 ^ 64
    ∧ (((maybe_buffered_data_provider_t.construct (.ok [[9]]) 5 3).get_size = 5
      ∧ (maybe_buffered_data_provider_t.construct (.ok [[9]]) 5 3).size =
        ((5 : Nat) : Int))
    ↔ (5 : Nat) ≤ 2 ^ 31 - 1) :=
  ⟨by norm_num, mbdp_int_size_truncation (.ok [[9]]) 5 3 (by norm_num)⟩

/-! ## `data_provider_splitter_t` (header lines 207-229) -/

/-- `data_provider_splitter_t::reusable_provider_t` (inline in the header):
a `size` field and the memoized group `bg`, `NULL` (`none`) when the
branches must throw. -/
structure reusable_provider_t where
  size : Nat
  bg : Option (List (List Byte))
deriving Repr, DecidableEq

namespace reusable_provider_t

/-- `get_size()` (header lines 221-223): `return size;`. -/
def get_size (r : reusable_provider_t) : Nat := r.size

/-- `get_data_as_buffers()` (header lines 224-227): `if (bg) return bg;
else throw data_provider_failed_exc_t();`.  The method mutates nothing; it
is given the state-passing signature of a read so that idempotence is a
provable statement rather than a typing accident. -/
def get_data_as_buffers (r : reusable_provider_t) :
    reusable_provider_t × ReadResult :=
  match r.bg with
  | some g => (r, .ok g)
  | none => (r, .error ())

end reusable_provider_t

/-- `N` consecutive reads through the shared `reusable_provider_t`, threading
the state and collecting each call's outcome. -/
def reusable_run (r : reusable_provider_t) :
    Nat → reusable_provider_t × List ReadResult
  | 0 => (r, [])
  | n + 1 =>
    let s := r.get_data_as_buffers
    let rest := reusable_run s.1 n
    (rest.1, s.2 :: rest.2)

/-- `data_provider_splitter_t`: the single shared `reusable_provider` member,
a flag recording whether the wrapped provider has been drained yet, and a
ghost counter of how many times the wrapped provider has actually been read
(used to state "drained at most once"). -/
structure data_provider_splitter_t where
  drained : Bool
  reusable_provider : reusable_provider_t
  drains : Nat
deriving Repr, DecidableEq

namespace data_provider_splitter_t

/-- Modelled from the spec: the constructor body is not in `src/`.  Per §4.6
and §8, the splitter does not read the wrapped provider at construction: it
records the wrapped provider's size in the shared member and leaves the
memoized outcome unset. -/
def construct (inner_size : Nat) : data_provider_splitter_t :=
  ⟨false, ⟨inner_size, none⟩, 0⟩

/-- Modelled from the spec: `branch()` (body not in `src/`) returns a
pointer to the single shared member `reusable_provider`; every handle
aliases that one object. -/
def branch (s : data_provider_splitter_t) : reusable_provider_t :=
  s.reusable_provider

/-- Modelled from the spec (§4.6): a read through any branch handle.  On the
first actual read the splitter drains the wrapped provider once through the
pull-from-push adapter machinery — one contiguous buffer of `size` bytes
filled by the wrapped provider, exposed as a single-span read-only group —
memoizing the group, or `none` when the drain failed; the call (and every
later one) is then answered by the shared `reusable_provider_t`.  The
wrapped provider is modelled by the byte stream its fill writes, or
failure. -/
def branch_read (s : data_provider_splitter_t)
    (inner : Except Unit (List Byte)) :
    data_provider_splitter_t × ReadResult :=
  if s.drained then (s, (s.reusable_provider.get_data_as_buffers).2)
  else
    let res : Option (List (List Byte)) :=
      match inner with
      | .ok bs => some [bs]
      | .error () => none
    let s2 : data_provider_splitter_t :=
      ⟨true, ⟨s.reusable_provider.size, res⟩, s.drains + 1⟩
    (s2, (s2.reusable_provider.get_data_as_buffers).2)

end data_provider_splitter_t

/-- `N` consecutive branch reads on a splitter, in order, threading the
state and collecting each read's outcome. -/
def splitter_run (s : data_provider_splitter_t)
    (inner : Except Unit (List Byte)) :
    Nat → data_provider_splitter_t × List ReadResult
  | 0 => (s, [])
  | n + 1 =>
    let st := s.branch_read inner
    let rest := splitter_run st.1 inner n
    (rest.1, st.2 :: rest.2)

/-- The outcome the splitter memoizes for the wrapped provider: a single
read-only span of its bytes, or the recorded drain failure. -/
def drain_outcome (inner : Except Unit (List Byte)) : ReadResult :=
  match inner with
  | .ok bs => .ok [bs]
  | .error () => .error ()

theorem branch_read_drained (s : data_provider_splitter_t)
    (inner : Except Unit (List Byte)) (h : s.drained = true) :
    s.branch_read inner = (s, (s.reusable_provider.get_data_as_buffers).2) := by
  simp [data_provider_splitter_t.branch_read, h]

theorem splitter_run_drained (s : data_provider_splitter_t)
    (inner : Except Unit (List Byte)) (N : Nat) (h : s.drained = true) :
    splitter_run s inner N =
      (s, List.replicate N ((s.reusable_provider.get_data_as_buffers).2)) := by
  induction N with
  | zero => simp [splitter_run]
  | succ n ih =>
    simp [splitter_run, branch_read_drained s inner h, ih,
      List.replicate_succ]

/-- C3: starting from a freshly constructed splitter over a single-read
provider, any number `N` of branch reads, in the order they occur, all
observe the same outcome — the memoized single-span group holding the
wrapped provider's bytes when its drain succeeds, the thrown
`data_provider_failed_exc_t` when it fails — and the wrapped provider is
drained at most once regardless of `N`. -/
theorem splitter_branches_agree (sz : Nat)
    (inner : Except Unit (List Byte)) (N : Nat) :
    (splitter_run (data_provider_splitter_t.construct sz) inner N).2 =
      List.replicate N (drain_outcome inner)
    ∧ (splitter_run (data_provider_splitter_t.construct sz) inner N).1.drains
      ≤ 1 := by
  cases N with
  | zero => simp [splitter_run, data_provider_splitter_t.construct]
  | succ n =>
    cases inner with
    | ok bs =>
      have hfirst : (data_provider_splitter_t.construct sz).branch_read
          (.ok bs) = (⟨true, ⟨sz, some [bs]⟩, 1⟩, .ok [bs]) := by
        simp [data_provider_splitter_t.branch_read,
          data_provider_splitter_t.construct,
          reusable_provider_t.get_data_as_buffers]
      have hrest := splitter_run_drained ⟨true, ⟨sz, some [bs]⟩, 1⟩
        (.ok bs) n rfl
      simp [splitter_run, hfirst, hrest, drain_outcome,
        reusable_provider_t.get_data_as_buffers, List.replicate_succ]
    | error e =>
      cases e
      have hfirst : (data_provider_splitter_t.construct sz).branch_read
          (.error ()) = (⟨true, ⟨sz, none⟩, 1⟩, .error ()) := by
        simp [data_provider_splitter_t.branch_read,
          data_provider_splitter_t.construct,
          reusable_provider_t.get_data_as_buffers]
      have hrest := splitter_run_drained ⟨true, ⟨sz, none⟩, 1⟩
        (.error ()) n rfl
      simp [splitter_run, hfirst, hrest, drain_outcome,
        reusable_provider_t.get_data_as_buffers, List.replicate_succ]

/-- C5: the splitter does not read the wrapped provider at construction
time (its drain counter is zero and nothing is memoized); the wrapped
provider is drained exactly at the first branch read, which memoizes either
the single-span read-only group produced by the pull-from-push machinery or
the recorded drain failure. -/
theorem splitter_drains_lazily (sz : Nat)
    (inner : Except Unit (List Byte)) :
    (data_provider_splitter_t.construct sz).drains = 0
    ∧ (data_provider_splitter_t.construct sz).drained = false
    ∧ ((data_provider_splitter_t.construct sz).branch_read inner).1.drains = 1
    ∧ ((data_provider_splitter_t.construct sz).branch_read inner).1.drained
      = true
    ∧ ((data_provider_splitter_t.construct
        sz).branch_read inner).1.reusable_provider.bg =
      (match inner with
        | .ok bs => some [bs]
        | .error () => none) := by
  cases inner with
  | ok bs =>
    refine ⟨rfl, rfl, ?_, ?_, ?_⟩ <;>
      simp [data_provider_splitter_t.branch_read,
        data_provider_splitter_t.construct]
  | error e =>
    cases e
    refine ⟨rfl, rfl, ?_, ?_, ?_⟩ <;>
      simp [data_provider_splitter_t.branch_read,
        data_provider_splitter_t.construct]

theorem reusable_run_pure (r : reusable_provider_t) (N : Nat) :
    reusable_run r N = (r, List.replicate N ((r.get_data_as_buffers).2)) := by
  induction N with
  | zero => simp [reusable_run]
  | succ n ih =>
    have hfst : (r.get_data_as_buffers).1 = r := by
      cases h : r.bg <;> simp [reusable_provider_t.get_data_as_buffers, h]
    simp [reusable_run, hfst, ih, List.replicate_succ]

/-- C9: every `branch()` handle is the one shared `reusable_provider_t`, and
its `get_data_as_buffers` is idempotent rather than one-shot: `N` calls, for
any `N`, leave the provider unchanged and return `N` identical outcomes —
the cached group on every call when `bg` is non-null, the thrown
`data_provider_failed_exc_t` on every call when it is null. -/
theorem splitter_branch_idempotent (s : data_provider_splitter_t) (N : Nat) :
    s.branch = s.reusable_provider
    ∧ (reusable_run s.branch N).1 = s.branch
    ∧ (reusable_run s.branch N).2 =
      List.replicate N
        (match s.branch.bg with
          | some g => .ok g
          | none => .error ()) := by
  refine ⟨rfl, ?_, ?_⟩
  · rw [reusable_run_pure]
  · rw [reusable_run_pure]
    cases h : s.branch.bg <;>
      simp [reusable_provider_t.get_data_as_buffers, h]

/-! ## `buffer_borrowing_data_provider_t` and its side provider
(header lines 171-205)

The rendezvous bodies are not in `src/`; the header declares the one-shot
channel `cond_` (carrying the buffer-group pointer) and the completion
condition `done_cond_`.  The protocol is modelled from the spec (§4.5) as a
labelled transition system whose labels are the observable rendezvous
events. -/

/-- The observable events of the rendezvous between the side reader
(`get_data_as_buffers`) and the producer (`supply_buffers_and_wait`). -/
inductive rv_label where
  | callRead
  | callSupply
  | recvBuffers
  | signalDone
  | returnSupply
deriving Repr, DecidableEq

/-- Which rendezvous events have occurred so far. -/
structure rv_state where
  readerCalled : Bool
  supplied : Bool
  received : Bool
  doneSignalled : Bool
  returned : Bool
deriving Repr, DecidableEq

/-- The state at construction: nothing has happened. -/
def rv_init : rv_state := ⟨false, false, false, false, false⟩

/-- Modelled from the spec (§4.5): one step of the single-use rendezvous.
Each rendezvous method may be called at most once (a second call is a
contract violation: no valid transition).  The reader receives the supplied
group pointer only once both sides have arrived (whichever arrives first
blocks); completion can be signalled only after the reader holds the
pointer; `supply_buffers_and_wait` returns only after completion is
signalled (it blocks on `done_cond_`).  An invalid event yields `none`. -/
def rv_step (s : rv_state) : rv_label → Option rv_state
  | .callRead =>
    if s.readerCalled then none else some { s with readerCalled := true }
  | .callSupply =>
    if s.supplied then none else some { s with supplied := true }
  | .recvBuffers =>
    if s.readerCalled && s.supplied && !s.received then
      some { s with received := true }
    else none
  | .signalDone =>
    if s.received && !s.doneSignalled then
      some { s with doneSignalled := true }
    else none
  | .returnSupply =>
    if s.doneSignalled && !s.returned then
      some { s with returned := true }
    else none

/-- Run a sequence of rendezvous events, failing if any event is invalid in
its state. -/
def rv_exec (s : rv_state) : List rv_label → Option rv_state
  | [] => some s
  | l :: ls =>
    match rv_step s l with
    | none => none
    | some s2 => rv_exec s2 ls

/-- The single-use discipline invariant: a return implies completion was
signalled, which implies the reader received the pointer. -/
def rv_inv (s : rv_state) : Prop :=
  (s.returned = true → s.doneSignalled = true)
  ∧ (s.doneSignalled = true → s.received = true)

theorem rv_step_inv (s : rv_state) (l : rv_label) (s2 : rv_state)
    (hs : rv_inv s) (h : rv_step s l = some s2) : rv_inv s2 := by
  obtain ⟨h1, h2⟩ := hs
  cases l <;> simp only [rv_step] at h
  · split at h
    · exact absurd h (by simp)
    · cases h; exact ⟨h1, h2⟩
  · split at h
    · exact absurd h (by simp)
    · cases h; exact ⟨h1, h2⟩
  · split at h
    · cases h; exact ⟨h1, fun _ => rfl⟩
    · exact absurd h (by simp)
  · split at h
    · rename_i hc
      cases h
      simp only [Bool.and_eq_true] at hc
      exact ⟨fun _ => rfl, fun _ => hc.1⟩
    · exact absurd h (by simp)
  · split at h
    · rename_i hc
      cases h
      simp only [Bool.and_eq_true, Bool.not_eq_true'] at hc
      exact ⟨fun _ => hc.1, h2⟩
    · exact absurd h (by simp)

theorem rv_exec_inv (tr : List rv_label) (s s2 : rv_state)
    (hs : rv_inv s) (h : rv_exec s tr = some s2) : rv_inv s2 := by
  induction tr generalizing s with
  | nil => simp only [rv_exec] at h; cases h; exact hs
  | cons l ls ih =>
    simp only [rv_exec] at h
    cases hstep : rv_step s l with
    | none => rw [hstep] at h; cases h
    | some s1 =>
      rw [hstep] at h
      exact ih s1 (rv_step_inv s l s1 hs hstep) h

theorem rv_step_received_back (s : rv_state) (l : rv_label) (s2 : rv_state)
    (h : rv_step s l = some s2) (hr : s2.received = true)
    (hl : l ≠ rv_label.recvBuffers) : s.received = true := by
  cases l <;> simp only [rv_step] at h
  · split at h
    · exact absurd h (by simp)
    · cases h; exact hr
  · split at h
    · exact absurd h (by simp)
    · cases h; exact hr
  · exact absurd rfl hl
  · split at h
    · cases h; exact hr
    · exact absurd h (by simp)
  · split at h
    · cases h; exact hr
    · exact absurd h (by simp)

/-- If a run ends with the reader having received the pointer, then either
it had already received it at the start or a `recvBuffers` event occurs in
the run. -/
theorem rv_exec_received_mem (tr : List rv_label) (s s2 : rv_state)
    (h : rv_exec s tr = some s2) (hr : s2.received = true) :
    s.received = true ∨ rv_label.recvBuffers ∈ tr := by
  induction tr generalizing s with
  | nil => simp only [rv_exec] at h; cases h; exact Or.inl hr
  | cons l ls ih =>
    simp only [rv_exec] at h
    cases hstep : rv_step s l with
    | none => rw [hstep] at h; cases h
    | some s1 =>
      rw [hstep] at h
      rcases ih s1 h with h1 | h1
      · by_cases hl : l = rv_label.recvBuffers
        · exact Or.inr (by simp [hl])
        · exact Or.inl (rv_step_received_back s l s1 hstep h1 hl)
      · exact Or.inr (List.mem_cons_of_mem l h1)

theorem rv_exec_append (t1 t2 : List rv_label) (s : rv_state) :
    rv_exec s (t1 ++ t2) =
      match rv_exec s t1 with
      | none => none
      | some s1 => rv_exec s1 t2 := by
  induction t1 generalizing s with
  | nil => simp [rv_exec]
  | cons l ls ih =>
    simp only [List.cons_append, rv_exec]
    cases rv_step s l with
    | none => rfl
    | some s1 => exact ih s1

theorem rv_inv_init : rv_inv rv_init := by
  simp [rv_inv, rv_init]

/-- C4: in every valid run of the rendezvous from the initial state, if
`supply_buffers_and_wait` has returned then the reader has received the
supplied buffer-group pointer and has signalled completion; moreover every
`returnSupply` event in the run is preceded by a `recvBuffers` event, so the
producer's call never returns before the (current or future) reader has the
pointer, and its return happens only after the reader's completion
signal. -/
theorem supply_wait_returns_after_handoff (tr : List rv_label)
    (s : rv_state) (hex : rv_exec rv_init tr = some s)
    (hret : s.returned = true) :
    s.received = true ∧ s.doneSignalled = true
    ∧ ∀ t1 t2, tr = t1 ++ rv_label.returnSupply :: t2 →
        rv_label.recvBuffers ∈ t1 := by
  have hinv : rv_inv s := rv_exec_inv tr rv_init s rv_inv_init hex
  have hdone : s.doneSignalled = true := hinv.1 hret
  have hrecv : s.received = true := hinv.2 hdone
  refine ⟨hrecv, hdone, ?_⟩
  intro t1 t2 hsplit
  rw [hsplit, rv_exec_append] at hex
  cases h1 : rv_exec rv_init t1 with
  | none => rw [h1] at hex; cases hex
  | some s1 =>
    rw [h1] at hex
    simp only [rv_exec] at hex
    cases hstep : rv_step s1 rv_label.returnSupply with
    | none => rw [hstep] at hex; cases hex
    | some s1b =>
      have hinv1 : rv_inv s1 := rv_exec_inv t1 rv_init s1 rv_inv_init h1
      have hd1 : s1.doneSignalled = true := by
        simp only [rv_step] at hstep
        split at hstep
        · rename_i hc
          simp only [Bool.and_eq_true] at hc
          exact hc.1
        · exact absurd hstep (by simp)
      have hr1 : s1.received = true := hinv1.2 hd1
      rcases rv_exec_received_mem t1 rv_init s1 h1 hr1 with hbad | hmem
      · cases hbad
      · exact hmem

/-- Witness for `supply_wait_returns_after_handoff`: the canonical complete
run. -/
theorem supply_wait_returns_after_handoff_witness :
    rv_exec rv_init [rv_label.callRead, rv_label.callSupply,
        rv_label.recvBuffers, rv_label.signalDone, rv_label.returnSupply] =
      some ⟨true, true, true, true, true⟩
    ∧ (⟨true, true, true, true, true⟩ : rv_state).returned = true
    ∧ ((⟨true, true, true, true, true⟩ : rv_state).received = true
      ∧ (⟨true, true, true, true, true⟩ : rv_state).doneSignalled = true
      ∧ ∀ t1 t2, [rv_label.callRead, rv_label.callSupply,
          rv_label.recvBuffers, rv_label.signalDone, rv_label.returnSupply] =
            t1 ++ rv_label.returnSupply :: t2 →
          rv_label.recvBuffers ∈ t1) :=
  ⟨by decide, by decide,
   supply_wait_returns_after_handoff _ _ (by decide) (by decide)⟩

/-- `buffer_borrowing_data_provider_t::side_data_provider_t`: the declared
fields are the reader thread, the rendezvous conditions (modelled by the
`rv_state`), and the `size_` fixed at construction. -/
structure side_data_provider_t where
  reading_thread_ : Int
  size_ : Nat
  rv : rv_state
deriving Repr, DecidableEq

/-- Modelled from the spec: `side_data_provider_t(reading_thread, size)`
stores the reader thread and the size; the rendezvous starts with no event
having occurred. -/
def side_construct (thread : Int) (sz : Nat) : side_data_provider_t :=
  ⟨thread, sz, rv_init⟩

/-- `get_size()` on the side provider: returns the `size_` field.  It is a
pure field read — it consults neither condition variable, hence never
blocks. -/
def side_data_provider_t.get_size (s : side_data_provider_t) : Nat :=
  s.size_

/-- A rendezvous event lifted to the side provider: only the rendezvous
component evolves. -/
def side_step (s : side_data_provider_t) (l : rv_label) :
    Option side_data_provider_t :=
  match rv_step s.rv l with
  | none => none
  | some r => some ⟨s.reading_thread_, s.size_, r⟩

/-- Run a sequence of rendezvous events on the side provider. -/
def side_exec (s : side_data_provider_t) :
    List rv_label → Option side_data_provider_t
  | [] => some s
  | l :: ls =>
    match side_step s l with
    | none => none
    | some s2 => side_exec s2 ls

theorem side_step_size (s : side_data_provider_t) (l : rv_label)
    (s2 : side_data_provider_t) (h : side_step s l = some s2) :
    s2.size_ = s.size_ := by
  simp only [side_step] at h
  cases hs : rv_step s.rv l with
  | none => rw [hs] at h; cases h
  | some r => rw [hs] at h; cases h; rfl

/-- C8: `get_size()` on a side provider constructed with size `sz` returns
exactly `sz` in every reachable rendezvous state — before the reader blocks,
while either party is blocked, and after the handoff — and it is a pure
field read (it never blocks). -/
theorem side_get_size_constant (thread : Int) (sz : Nat)
    (tr : List rv_label) (s : side_data_provider_t)
    (h : side_exec (side_construct thread sz) tr = some s) :
    s.get_size = sz := by
  suffices hgen : ∀ (s0 : side_data_provider_t) (tr : List rv_label)
      (s : side_data_provider_t), side_exec s0 tr = some s →
      s.get_size = s0.get_size from hgen _ tr s h
  intro s0 tr
  induction tr generalizing s0 with
  | nil =>
    intro s hs
    simp only [side_exec] at hs
    cases hs; rfl
  | cons l ls ih =>
    intro s hs
    simp only [side_exec] at hs
    cases hstep : side_step s0 l with
    | none => rw [hstep] at hs; cases hs
    | some s1 =>
      rw [hstep] at hs
      have h1 := ih s1 s hs
      have h2 := side_step_size s0 l s1 hstep
      simp only [side_data_provider_t.get_size] at h1 ⊢
      rw [h1, h2]

/-- Witness for `side_get_size_constant`: size 7, after the reader has
called and blocked. -/
theorem side_get_size_constant_witness :
    side_exec (side_construct 2 7) [rv_label.callRead] =
      some ⟨2, 7, ⟨true, false, false, false, false⟩⟩
    ∧ (⟨2, 7, ⟨true, false, false, false, false⟩⟩ :
        side_data_provider_t).get_size = 7 :=
  ⟨by decide,
   side_get_size_constant 2 7 [rv_label.callRead] _ (by decide)⟩

/-- `buffer_borrowing_data_provider_t`: the declared members are the wrapped
provider `inner_` (modelled by the outcome of its native span read), the
side provider, and the ownership flag.  Bodies are not in `src/`; modelled
from the spec (§4.5): `get_size` reflects the wrapped provider's size, the
local read surfaces delegate to `inner_`. -/
structure buffer_borrowing_data_provider_t where
  inner_size : Nat
  inner_outcome : ReadResult
  side_ : side_data_provider_t
  side_owned_ : Bool

namespace buffer_borrowing_data_provider_t

def get_size (p : buffer_borrowing_data_provider_t) : Nat := p.inner_size

/-- Modelled from the spec: the local fill surface delegates to
`inner_`, whose bytes are written across the destination. -/
def get_data_into_buffers (p : buffer_borrowing_data_provider_t)
    (dest : List Nat) :
    buffer_borrowing_data_provider_t × ReadResult :=
  match p.inner_outcome with
  | .ok g => (p, .ok (fillAll dest g))
  | .error () => (p, .error ())

/-- Modelled from the spec: the local span surface delegates to `inner_`. -/
def get_data_as_buffers (p : buffer_borrowing_data_provider_t) :
    buffer_borrowing_data_provider_t × ReadResult :=
  (p, p.inner_outcome)

/-- `side_provider()`: returns the side provider member. -/
def side_provider (p : buffer_borrowing_data_provider_t) :
    side_data_provider_t :=
  p.side_

end buffer_borrowing_data_provider_t

/-- C7: for every concrete provider of the core — `buffered_data_provider_t`,
`maybe_buffered_data_provider_t`, `buffer_borrowing_data_provider_t`, its
side provider, and the splitter's shared branch provider — `get_size()`
returns the same value after a read operation as before it (in particular
after a successful one). -/
theorem get_size_stable_across_reads
    (bd : buffered_data_provider_t) (dest : List Nat)
    (mb : maybe_buffered_data_provider_t)
    (bb : buffer_borrowing_data_provider_t)
    (sp : data_provider_splitter_t) (inner : Except Unit (List Byte))
    (r : reusable_provider_t)
    (sd : side_data_provider_t) (l : rv_label)
    (sd2 : side_data_provider_t) (h : side_step sd l = some sd2) :
    (bd.get_data_as_buffers).1.get_size = bd.get_size
    ∧ (bd.get_data_into_buffers dest).1.get_size = bd.get_size
    ∧ (mb.get_data_as_buffers).1.get_size = mb.get_size
    ∧ (mb.get_data_into_buffers dest).1.get_size = mb.get_size
    ∧ (bb.get_data_as_buffers).1.get_size = bb.get_size
    ∧ (bb.get_data_into_buffers dest).1.get_size = bb.get_size
    ∧ (sp.branch_read inner).1.branch.get_size = sp.branch.get_size
    ∧ (r.get_data_as_buffers).1.get_size = r.get_size
    ∧ sd2.get_size = sd.get_size := by
  refine ⟨rfl, rfl, ?_, ?_, rfl, ?_, ?_, ?_, ?_⟩
  · simp only [maybe_buffered_data_provider_t.get_data_as_buffers]
    split
    · rfl
    · cases hb : mb.buffer
      · cases ho : mb.original with
        | ok g => simp [hb, ho]
        | error e => cases e; simp [hb, ho]
      · simp [hb]
  · simp only [maybe_buffered_data_provider_t.get_data_into_buffers]
    split
    · rfl
    · cases hb : mb.buffer
      · cases ho : mb.original with
        | ok g => simp [hb, ho]
        | error e => cases e; simp [hb, ho]
      · simp [hb]
  · cases ho : bb.inner_outcome with
    | ok g => simp [buffer_borrowing_data_provider_t.get_data_into_buffers, ho]
    | error e =>
      cases e
      simp [buffer_borrowing_data_provider_t.get_data_into_buffers, ho]
  · simp only [data_provider_splitter_t.branch_read]
    split
    · rfl
    · cases inner with
      | ok bs =>
        simp [data_provider_splitter_t.branch,
          reusable_provider_t.get_size]
      | error e =>
        cases e
        simp [data_provider_splitter_t.branch,
          reusable_provider_t.get_size]
  · cases hb : r.bg <;>
      simp [reusable_provider_t.get_data_as_buffers, hb]
  · exact side_step_size sd l sd2 h

/-- A concrete borrowing wrapper used by the witness below. -/
def bb_example : buffer_borrowing_data_provider_t :=
  { inner_size := 3, inner_outcome := .ok [[5, 6, 7]],
    side_ := side_construct 0 3, side_owned_ := true }

/-- Witness for `get_size_stable_across_reads` at concrete providers. -/
theorem get_size_stable_across_reads_witness :
    side_step (side_construct 0 4) rv_label.callRead =
      some ⟨0, 4, ⟨true, false, false, false, false⟩⟩
    ∧ (((buffered_data_provider_t.ofBytes
        [1]).get_data_as_buffers).1.get_size =
      (buffered_data_provider_t.ofBytes [1]).get_size
    ∧ ((buffered_data_provider_t.ofBytes [1]).get_data_into_buffers
        [1]).1.get_size = (buffered_data_provider_t.ofBytes [1]).get_size
    ∧ ((maybe_buffered_data_provider_t.construct (.ok [[2]]) 1
        5).get_data_as_buffers).1.get_size =
      (maybe_buffered_data_provider_t.construct (.ok [[2]]) 1 5).get_size
    ∧ ((maybe_buffered_data_provider_t.construct (.ok [[2]]) 1
        5).get_data_into_buffers [1]).1.get_size =
      (maybe_buffered_data_provider_t.construct (.ok [[2]]) 1 5).get_size
    ∧ (bb_example.get_data_as_buffers).1.get_size = bb_example.get_size
    ∧ (bb_example.get_data_into_buffers [1]).1.get_size =
      bb_example.get_size
    ∧ ((data_provider_splitter_t.construct 9).branch_read
        (.ok [8])).1.branch.get_size =
      (data_provider_splitter_t.construct 9).branch.get_size
    ∧ ((⟨2, none⟩ : reusable_provider_t).get_data_as_buffers).1.get_size =
      (⟨2, none⟩ : reusable_provider_t).get_size
    ∧ (⟨0, 4, ⟨true, false, false, false, false⟩⟩ :
        side_data_provider_t).get_size =
      (side_construct 0 4).get_size) :=
  ⟨by decide,
   get_size_stable_across_reads (buffered_data_provider_t.ofBytes [1]) [1]
     (maybe_buffered_data_provider_t.construct (.ok [[2]]) 1 5)
     bb_example
     (data_provider_splitter_t.construct 9) (.ok [8]) ⟨2, none⟩
     (side_construct 0 4) rv_label.callRead
     ⟨0, 4, ⟨true, false, false, false, false⟩⟩ (by decide)⟩

/-- C6 (in-range behavior): appending buffers and indexing them back.  Under
the precondition `i < num_buffers()`, `get_buffer(i)` on either group type
returns exactly the `i`-th appended `(size, pointer)` pair, and
`num_buffers()` counts the appended buffers. -/
theorem get_buffer_in_range (ps : List (Nat × List Byte)) (i : Nat)
    (h : i < (buildConstGroup ps).num_buffers) :
    (buildConstGroup ps).num_buffers = ps.length
    ∧ (buildConstGroup ps).get_buffer i =
      ⟨(ps.getD i (0, [])).1, (ps.getD i (0, [])).2⟩
    ∧ (buildGroup ps).get_buffer i =
      ⟨(ps.getD i (0, [])).1, (ps.getD i (0, [])).2⟩ := by
  have hnum : (buildConstGroup ps).num_buffers = ps.length := by
    simp [const_buffer_group_t.num_buffers, buildConstGroup_buffers]
  have hl : i < ps.length := hnum ▸ h
  have hc : (buildConstGroup ps).get_buffer i =
      ⟨(ps.getD i (0, [])).1, (ps.getD i (0, [])).2⟩ := by
    simp only [const_buffer_group_t.get_buffer, buildConstGroup_buffers]
    rw [List.getD_eq_getElem?_getD,
      List.getElem?_eq_getElem (by simpa using hl)]
    rw [List.getD_eq_getElem?_getD, List.getElem?_eq_getElem hl]
    simp
  exact ⟨hnum, hc, by simp [buffer_group_t.get_buffer, buildGroup_inner, hc]⟩

/-- Witness for `get_buffer_in_range` on a one-buffer group. -/
theorem get_buffer_in_range_witness :
    0 < (buildConstGroup [(2, [7, 8])]).num_buffers
    ∧ ((buildConstGroup [(2, [7, 8])]).num_buffers = 1
      ∧ (buildConstGroup [(2, [7, 8])]).get_buffer 0 = ⟨2, [7, 8]⟩
      ∧ (buildGroup [(2, [7, 8])]).get_buffer 0 = ⟨2, [7, 8]⟩) :=
  ⟨by decide, get_buffer_in_range [(2, [7, 8])] 0 (by decide)⟩

/-- C6 counterexample to the checked-access reading: on the empty group,
index 0 is out of range; the spec-words checked access rejects it (`none`),
but the code's `get_buffer` performs the unchecked `std::vector` subscript
and yields a value (here the model's unspecified junk value) rather than
rejecting the access — on the read-only group and on the mutable group
alike. -/
theorem get_buffer_unchecked_counterexample :
    (const_buffer_group_t.mk []).num_buffers = 0
    ∧ const_buffer_group_t.spec_checked_get_buffer ⟨[]⟩ 0 = none
    ∧ (const_buffer_group_t.mk []).get_buffer 0 = junk_cbuffer
    ∧ (buffer_group_t.mk ⟨[]⟩).get_buffer 0 =
      ⟨junk_cbuffer.size, junk_cbuffer.data⟩ := by
  decide
